import Mathlib

/-!
Shallow embedding of the ziti-sdk-c bridge (library/conn_bridge.c) and the
stream-link adapter (library/ziti_src.c).

The bridge session struct `ziti_bridge_s` becomes the `Bridge` record; each C
callback becomes a Lean function taking the current session state together
with the parameters the event loop / SDK would pass (lengths, status codes,
results of fallible external calls) and returning the new session state plus
the list of externally visible actions it performed (pool returns, write
submissions, handle closes, ...).  Results of external fallible calls
(`ziti_write` submission, `uv_read_start`, `uv_try_write`, `uv_shutdown`)
enter as oracle parameters.  `runEvents` folds a whole sequence of
timestamped events over a session, which gives the trace-level statements
("for every sequence of events ...") their meaning.
-/

set_option autoImplicit false

/-- Numeric sentinels.  `ZITI_OK` is 0 as in the SDK headers.  The remaining
values are modelled from the spec and the libuv / SDK headers (which are not
part of the embedded sources); only their sign and pairwise distinctness
matter to the control flow of the embedded code. -/
def ZITI_OK : Int := 0

/-- EOF sentinel delivered by the ziti data callback. -/
def ZITI_EOF : Int := -17

/-- Normal-close sentinel delivered by the ziti data callback. -/
def ZITI_CONN_CLOSED : Int := -26

/-- A representative synchronous `ziti_write` submission failure code. -/
def ZITI_INVALID_STATE : Int := -14

/-- libuv end-of-file status. -/
def UV_EOF : Int := -4095

/-- libuv would-block status (EWOULDBLOCK). -/
def UV_EAGAIN : Int := -11

/-- libuv no-buffer-space status, produced when `bridge_alloc` got nothing
from the pool. -/
def UV_ENOBUFS : Int := -105

/-- libuv cancelled-operation status (operation superseded by close). -/
def UV_ECANCELED : Int := -125

/-- libuv invalid-argument status. -/
def UV_EINVAL : Int := -22

/-- libuv connection-reset status. -/
def UV_ECONNRESET : Int := -104

/-- libuv connection-aborted status. -/
def UV_ECONNABORTED : Int := -103

/-- Externally visible actions a handler can perform.  Pool buffers are
identified by a `Nat` tag (the `b->base` pointer of the C code). -/
inductive Act where
  | poolReturn (buf : Nat)
  | zitiWriteSubmit (buf : Nat) (len : Nat)
  | closeLocal
  | zitiClose
  | zitiCloseWrite
  | shutdownSubmit
  | readStop
  | readStart
  | tryWriteLocal (len : Nat)
  | closeInHandle
  | closeOutHandle
  | fdbrNotify
deriving DecidableEq

/-- State of `struct ziti_bridge_s`.  `input` is `br->input != NULL`;
`inputIsUdp` is `br->input->type == UV_UDP`; `idler` is the single pending
deadline (absolute expiry time), `none` when no deadline is armed. -/
structure Bridge where
  closed : Bool
  ziti_eof : Bool
  input_eof : Bool
  input : Bool
  inputIsUdp : Bool
  input_throttle : Bool
  idle_timeout : Nat
  idler : Option Nat
deriving DecidableEq

/-- `close_bridge`: guarded by `closed`; on first call marks the session
closed, hands the input handle to the session close callback and clears the
handle reference, then submits the ziti connection close. -/
def close_bridge (br : Bridge) : Bridge × List Act :=
  if br.closed then (br, [])
  else
    let br1 : Bridge := { br with closed := true }
    if br1.input then
      ({ br1 with input := false }, [Act.closeLocal, Act.zitiClose])
    else
      (br1, [Act.zitiClose])

/-- Helper: perform `close_bridge` after a list of already-emitted actions. -/
def andClose (pre : List Act) (br : Bridge) : Bridge × List Act :=
  let r := close_bridge br
  (r.1, pre ++ r.2)

/-- `br_set_idle_timeout`: when an idle timeout is configured, (re-)arm the
single deadline at `now + idle_timeout` (the deadline scheduler cancels and
re-arms rather than stacking, as the spec states). -/
def br_set_idle_timeout (now : Nat) (br : Bridge) : Bridge :=
  if 0 < br.idle_timeout then { br with idler := some (now + br.idle_timeout) }
  else br

/-- `on_bridge_idle`: deadline expiry closes the bridge. -/
def on_bridge_idle (br : Bridge) : Bridge × List Act :=
  close_bridge br

/-- `ziti_conn_bridge_idle_timeout`: 0 clears the configured timeout (without
touching an already pending deadline); a non-zero value stores it and re-arms
the deadline.  Returns 0. -/
def ziti_conn_bridge_idle_timeout (br : Bridge) (now : Nat) (millis : Nat) :
    Bridge × Int :=
  if millis = 0 then ({ br with idle_timeout := 0 }, 0)
  else (br_set_idle_timeout now { br with idle_timeout := millis }, 0)

/-- `on_shutdown`: completion of a previously submitted local half-close;
`UV_ECANCELED` (stream closed before the shutdown was processed) and success
are ignored, any other status closes the bridge. -/
def on_shutdown (br : Bridge) (status : Int) : Bridge × List Act :=
  if status ≠ 0 ∧ status ≠ UV_ECANCELED then close_bridge br
  else (br, [])

/-- `on_ziti_write`: remote-write completion.  Returns the pooled buffer
first, then: a failed write closes the bridge; a successful write on a live
handle with the throttle set clears the throttle and restarts local reads
(`restartRc` is the oracle result of `uv_read_start` / `uv_udp_recv_start`;
a non-zero result closes the bridge). -/
def on_ziti_write (br : Bridge) (status : Int) (buf : Nat) (restartRc : Int) :
    Bridge × List Act :=
  if status < ZITI_OK then
    andClose [Act.poolReturn buf] br
  else if br.input then
    if br.input_throttle then
      let br1 : Bridge := { br with input_throttle := false }
      if restartRc ≠ 0 then
        andClose [Act.poolReturn buf, Act.readStart] br1
      else
        (br1, [Act.poolReturn buf, Act.readStart])
    else
      (br, [Act.poolReturn buf])
  else
    (br, [Act.poolReturn buf])

/-- `bridge_alloc`: pool allocation before a read; a successful allocation
clears the throttle flag.  `alloc` is the pool's answer. -/
def bridge_alloc (br : Bridge) (alloc : Option Nat) : Bridge × Option Nat :=
  match alloc with
  | some b => ({ br with input_throttle := false }, some b)
  | none => (br, none)

/-- `on_ziti_data`: data pushed by the remote connection.  `tryWriteRc` is
the oracle result of the non-blocking local write (`uv_try_write` /
`uv_udp_try_send`), `shutdownRc` the oracle result of submitting
`uv_shutdown`.  The third component is the `ssize_t` value returned to the
SDK (bytes consumed, or a negative error). -/
def on_ziti_data (br : Bridge) (now : Nat) (len : Int)
    (tryWriteRc : Int) (shutdownRc : Int) : Bridge × List Act × Int :=
  let br := br_set_idle_timeout now br
  if 0 < len then
    if 0 ≤ tryWriteRc then
      (br, [Act.tryWriteLocal len.toNat], tryWriteRc)
    else if tryWriteRc = UV_EAGAIN then
      (br, [Act.tryWriteLocal len.toNat], 0)
    else
      let r := andClose [Act.tryWriteLocal len.toNat] br
      (r.1, r.2, tryWriteRc)
  else if len = ZITI_EOF then
    let br1 : Bridge := { br with ziti_eof := true }
    if br1.input_eof ∨ br1.inputIsUdp then
      let r := close_bridge br1
      (r.1, r.2, 0)
    else if shutdownRc ≠ 0 then
      let r := close_bridge br1
      (r.1, r.2, 0)
    else
      (br1, [Act.shutdownSubmit], 0)
  else
    let r := close_bridge br
    (r.1, r.2, 0)

/-- `on_input`: local stream read event.  `buf` names the pooled buffer that
`bridge_alloc` handed to this read; `writeRc` is the oracle result of the
`ziti_write` submission. -/
def on_input (br : Bridge) (now : Nat) (len : Int) (buf : Nat)
    (writeRc : Int) : Bridge × List Act :=
  let br := br_set_idle_timeout now br
  if 0 < len then
    if writeRc ≠ ZITI_OK then
      andClose [Act.zitiWriteSubmit buf len.toNat] br
    else
      (br, [Act.zitiWriteSubmit buf len.toNat])
  else if len = UV_ENOBUFS then
    if br.input_throttle = false then
      ({ br with input_throttle := true },
       [Act.poolReturn buf, Act.readStop])
    else
      (br, [Act.poolReturn buf])
  else if len = UV_EOF then
    let br1 : Bridge := { br with input_eof := true }
    if br1.ziti_eof then
      andClose [Act.poolReturn buf] br1
    else
      (br1, [Act.poolReturn buf, Act.zitiCloseWrite])
  else if len < 0 then
    andClose [Act.poolReturn buf] br
  else
    (br, [Act.poolReturn buf])

/-- `on_udp_input`: local datagram read event; like `on_input` but with no
EOF case (any negative length other than `UV_ENOBUFS` closes the bridge). -/
def on_udp_input (br : Bridge) (now : Nat) (len : Int) (buf : Nat)
    (writeRc : Int) : Bridge × List Act :=
  let br := br_set_idle_timeout now br
  if 0 < len then
    if writeRc ≠ ZITI_OK then
      andClose [Act.zitiWriteSubmit buf len.toNat] br
    else
      (br, [Act.zitiWriteSubmit buf len.toNat])
  else if len = UV_ENOBUFS then
    if br.input_throttle = false then
      ({ br with input_throttle := true },
       [Act.poolReturn buf, Act.readStop])
    else
      (br, [Act.poolReturn buf])
  else if len < 0 then
    andClose [Act.poolReturn buf] br
  else
    (br, [Act.poolReturn buf])

/-- `on_pipes_close`: session close callback of the asymmetric (two pipe
handles) variant; closes the input and the output handle, then notifies the
caller through the fd-bridge close callback when one was supplied. -/
def on_pipes_close (hasFdbr : Bool) : List Act :=
  [Act.closeInHandle, Act.closeOutHandle] ++
    (if hasFdbr then [Act.fdbrNotify] else [])

/-- Fresh bridge session as built by the attach operations. -/
def initBridge (udp : Bool) : Bridge :=
  { closed := false, ziti_eof := false, input_eof := false, input := true,
    inputIsUdp := udp, input_throttle := false, idle_timeout := 0,
    idler := none }

/-- Handle types accepted by `ziti_conn_bridge`. -/
inductive UvHandleType where
  | tcp
  | namedPipe
  | tty
  | udp
  | other
deriving DecidableEq

/-- `ziti_conn_bridge`: duplex single-handle attach.  `udpPeerRc` is the
oracle result of `uv_udp_getpeername`, `setDataCbRc` of
`ziti_conn_set_data_cb`, `readStartRc` of starting the read.  Returns the
created session with the actions performed, plus the status code handed to
the caller. -/
def ziti_conn_bridge (handleNull connNull : Bool) (ty : UvHandleType)
    (udpPeerRc setDataCbRc readStartRc : Int) :
    Option (Bridge × List Act) × Int :=
  if handleNull ∨ connNull then (none, UV_EINVAL)
  else if ¬ (ty = UvHandleType.tcp ∨ ty = UvHandleType.namedPipe ∨
             ty = UvHandleType.tty ∨ ty = UvHandleType.udp) then
    (none, UV_EINVAL)
  else if ty = UvHandleType.udp ∧ udpPeerRc ≠ 0 then (none, UV_EINVAL)
  else if setDataCbRc ≠ ZITI_OK then (none, UV_ECONNRESET)
  else
    let br := initBridge (decide (ty = UvHandleType.udp))
    if readStartRc ≠ 0 then (some (close_bridge br), UV_ECONNABORTED)
    else (some (br, []), ZITI_OK)

/-- `ziti_conn_bridge_fds`, branch `input != output`: builds the two pipe
handles, starts reading the input; a read-start failure closes the bridge
internally but the function still returns `ZITI_OK`. -/
def ziti_conn_bridge_fds_distinct (readStartRc : Int) :
    (Bridge × List Act) × Int :=
  let br := initBridge false
  if readStartRc ≠ 0 then (close_bridge br, ZITI_OK)
  else ((br, []), ZITI_OK)

/-- Socket types `ziti_conn_bridge_fds` can detect for a single duplex
descriptor. -/
inductive SockType where
  | stream
  | dgram
  | unknown
deriving DecidableEq

/-- `ziti_conn_bridge_fds`, branch `input == output`: wraps the descriptor in
a typed duplex handle and delegates to `ziti_conn_bridge`; an undetectable
socket type fails with `UV_EINVAL`. -/
def ziti_conn_bridge_fds_same (st : SockType)
    (udpPeerRc setDataCbRc readStartRc : Int) :
    Option (Bridge × List Act) × Int :=
  match st with
  | SockType.stream =>
      ziti_conn_bridge false false UvHandleType.tcp udpPeerRc setDataCbRc
        readStartRc
  | SockType.dgram =>
      ziti_conn_bridge false false UvHandleType.udp udpPeerRc setDataCbRc
        readStartRc
  | SockType.unknown => (none, UV_EINVAL)

/-- `zlnf_data_cb` (ziti_src.c): data delivery to the stream-link adapter.
`data` is the delivered chunk, `length` its signed length (or a sentinel);
`allocLen` / `allocNull` describe the buffer the consumer's allocate callback
offers.  The first component is the read notification propagated to the
consumer (status plus delivered bytes), the second the `ssize_t` returned to
the SDK as the number of bytes consumed. -/
def zlnf_data_cb (data : List Nat) (length : Int) (allocLen : Nat)
    (allocNull : Bool) : Option (Int × Option (List Nat)) × Int :=
  if length = ZITI_EOF then
    (some (UV_EOF, none), length)
  else if length < 0 then
    (some (length, none), length)
  else
    if allocLen = 0 ∨ allocNull then
      (none, 0)
    else
      let l : Int := if (allocLen : Int) < length then (allocLen : Int)
                     else length
      (some (l, some (data.take l.toNat)), l)

/-- Events that can hit one bridge session, each carrying the oracle results
of the external calls the handler would make. -/
inductive Ev where
  | localRead (len : Int) (buf : Nat) (writeRc : Int)
  | udpRead (len : Int) (buf : Nat) (writeRc : Int)
  | writeDone (status : Int) (buf : Nat) (restartRc : Int)
  | zitiData (len : Int) (tryWriteRc : Int) (shutdownRc : Int)
  | shutdownDone (status : Int)
  | setTimeout (millis : Nat)
  | idleFire
deriving DecidableEq

/-- One event hitting the session at time `now`.  A deadline expiry fires
only when a deadline is armed and due, and consumes it. -/
def step (br : Bridge) (now : Nat) (e : Ev) : Bridge × List Act :=
  match e with
  | Ev.localRead len buf wrc => on_input br now len buf wrc
  | Ev.udpRead len buf wrc => on_udp_input br now len buf wrc
  | Ev.writeDone st buf rrc => on_ziti_write br st buf rrc
  | Ev.zitiData len twrc src =>
      let r := on_ziti_data br now len twrc src
      (r.1, r.2.1)
  | Ev.shutdownDone st => on_shutdown br st
  | Ev.setTimeout m => ((ziti_conn_bridge_idle_timeout br now m).1, [])
  | Ev.idleFire =>
      match br.idler with
      | some t => if t ≤ now then on_bridge_idle { br with idler := none }
                  else (br, [])
      | none => (br, [])

/-- Fold a sequence of timestamped events over a session, collecting all
actions in order. -/
def runEvents (br : Bridge) : List (Nat × Ev) → Bridge × List Act
  | [] => (br, [])
  | (now, e) :: rest =>
      let r := step br now e
      let r2 := runEvents r.1 rest
      (r2.1, r.2 ++ r2.2)

/-- Number of ziti-connection-close submissions in an action list. -/
def zcCount : List Act → Nat
  | [] => 0
  | a :: as => (if a = Act.zitiClose then 1 else 0) + zcCount as

/-- Number of invocations of the session close callback (the local handle
close path) in an action list. -/
def lcCount : List Act → Nat
  | [] => 0
  | a :: as => (if a = Act.closeLocal then 1 else 0) + lcCount as

/-- 1 while the session is not yet closed, 0 afterwards. -/
def phi (br : Bridge) : Nat := if br.closed then 0 else 1

/-- 1 while the session still holds its local input handle. -/
def psi (br : Bridge) : Nat := if br.input then 1 else 0

/-- Per-step contract: a step either leaves `closed` and `input` unchanged
and performs no teardown actions, or it performs the single teardown:
`closed` flips false to true, the handle reference is dropped, exactly one
ziti close is submitted and the close callback runs exactly once if the
handle was still held. -/
def StepSpec (br : Bridge) (r : Bridge × List Act) : Prop :=
  (r.1.closed = br.closed ∧ r.1.input = br.input ∧
   zcCount r.2 = 0 ∧ lcCount r.2 = 0) ∨
  (br.closed = false ∧ r.1.closed = true ∧ r.1.input = false ∧
   zcCount r.2 = 1 ∧ lcCount r.2 = psi br)

theorem zcCount_append (a b : List Act) :
    zcCount (a ++ b) = zcCount a + zcCount b := by
  induction a with
  | nil => simp [zcCount]
  | cons x xs ih => simp [zcCount, ih]; omega

theorem lcCount_append (a b : List Act) :
    lcCount (a ++ b) = lcCount a + lcCount b := by
  induction a with
  | nil => simp [lcCount]
  | cons x xs ih => simp [lcCount, ih]; omega

@[simp] theorem bsit_closed (now : Nat) (br : Bridge) :
    (br_set_idle_timeout now br).closed = br.closed := by
  unfold br_set_idle_timeout; split <;> rfl

@[simp] theorem bsit_input (now : Nat) (br : Bridge) :
    (br_set_idle_timeout now br).input = br.input := by
  unfold br_set_idle_timeout; split <;> rfl

@[simp] theorem bsit_throttle (now : Nat) (br : Bridge) :
    (br_set_idle_timeout now br).input_throttle = br.input_throttle := by
  unfold br_set_idle_timeout; split <;> rfl

@[simp] theorem bsit_ziti_eof (now : Nat) (br : Bridge) :
    (br_set_idle_timeout now br).ziti_eof = br.ziti_eof := by
  unfold br_set_idle_timeout; split <;> rfl

@[simp] theorem bsit_input_eof (now : Nat) (br : Bridge) :
    (br_set_idle_timeout now br).input_eof = br.input_eof := by
  unfold br_set_idle_timeout; split <;> rfl

@[simp] theorem bsit_inputIsUdp (now : Nat) (br : Bridge) :
    (br_set_idle_timeout now br).inputIsUdp = br.inputIsUdp := by
  unfold br_set_idle_timeout; split <;> rfl

@[simp] theorem bsit_idle_timeout (now : Nat) (br : Bridge) :
    (br_set_idle_timeout now br).idle_timeout = br.idle_timeout := by
  unfold br_set_idle_timeout; split <;> rfl

theorem close_bridge_cases (br : Bridge) :
    (br.closed = true ∧ close_bridge br = (br, [])) ∨
    (br.closed = false ∧ (close_bridge br).1.closed = true ∧
     (close_bridge br).1.input = false ∧
     zcCount (close_bridge br).2 = 1 ∧
     lcCount (close_bridge br).2 = psi br) := by
  unfold close_bridge
  by_cases h : br.closed
  · left; simp [h]
  · right
    by_cases h2 : br.input <;> simp [h, h2, zcCount, lcCount, psi]

theorem close_bridge_stepSpec (br : Bridge) : StepSpec br (close_bridge br) := by
  rcases close_bridge_cases br with ⟨a, b⟩ | ⟨a, b, c, d, e⟩
  · rw [b]; exact Or.inl ⟨rfl, rfl, rfl, rfl⟩
  · exact Or.inr ⟨a, b, c, d, e⟩

theorem stepSpec_same {br br2 : Bridge} {as : List Act}
    (hc : br2.closed = br.closed) (hi : br2.input = br.input)
    (h1 : zcCount as = 0) (h2 : lcCount as = 0) : StepSpec br (br2, as) :=
  Or.inl ⟨hc, hi, h1, h2⟩

theorem stepSpec_base (br1 : Bridge) {br : Bridge} {r : Bridge × List Act}
    (hc : br1.closed = br.closed) (hi : br1.input = br.input)
    (h : StepSpec br1 r) : StepSpec br r := by
  rcases h with ⟨a, b, c, d⟩ | ⟨a, b, c, d, e⟩
  · exact Or.inl ⟨by rw [a, hc], by rw [b, hi], c, d⟩
  · refine Or.inr ⟨by rw [← hc]; exact a, b, c, d, ?_⟩
    rw [e]; unfold psi; rw [hi]

theorem andClose_stepSpec (pre : List Act) (br : Bridge)
    (h1 : zcCount pre = 0) (h2 : lcCount pre = 0) :
    StepSpec br (andClose pre br) := by
  have hcb := close_bridge_cases br
  unfold andClose
  rcases hcb with ⟨a, b⟩ | ⟨a, b, c, d, e⟩
  · rw [b]
    exact Or.inl ⟨rfl, rfl, by simpa [zcCount_append, zcCount] using h1,
      by simpa [lcCount_append, lcCount] using h2⟩
  · exact Or.inr ⟨a, b, c, by simp [zcCount_append, h1, d],
      by simp [lcCount_append, h2, e]⟩

theorem on_ziti_write_stepSpec (br : Bridge) (st : Int) (buf : Nat)
    (rrc : Int) : StepSpec br (on_ziti_write br st buf rrc) := by
  unfold on_ziti_write
  split_ifs with h1 h2 h3 h4
  · exact andClose_stepSpec _ _ (by simp [zcCount]) (by simp [lcCount])
  · exact stepSpec_base { br with input_throttle := false } rfl rfl
      (andClose_stepSpec _ _ (by simp [zcCount]) (by simp [lcCount]))
  · exact stepSpec_same rfl rfl (by simp [zcCount]) (by simp [lcCount])
  · exact stepSpec_same rfl rfl (by simp [zcCount]) (by simp [lcCount])
  · exact stepSpec_same rfl rfl (by simp [zcCount]) (by simp [lcCount])

theorem on_input_stepSpec (br : Bridge) (now : Nat) (len : Int) (buf : Nat)
    (wrc : Int) : StepSpec br (on_input br now len buf wrc) := by
  simp only [on_input]
  split_ifs with h1 h2 h3 h4 h5 h6
  · exact stepSpec_base (br_set_idle_timeout now br) (bsit_closed now br) (bsit_input now br)
      (andClose_stepSpec _ _ (by simp [zcCount]) (by simp [lcCount]))
  · exact stepSpec_same (by simp) (by simp) (by simp [zcCount]) (by simp [lcCount])
  · exact stepSpec_same (by simp) (by simp) (by simp [zcCount]) (by simp [lcCount])
  · exact stepSpec_same (by simp) (by simp) (by simp [zcCount]) (by simp [lcCount])
  · exact stepSpec_base { br_set_idle_timeout now br with input_eof := true }
      (by simp) (by simp)
      (andClose_stepSpec _ _ (by simp [zcCount]) (by simp [lcCount]))
  · exact stepSpec_same (by simp) (by simp) (by simp [zcCount]) (by simp [lcCount])
  · exact stepSpec_base (br_set_idle_timeout now br) (bsit_closed now br) (bsit_input now br)
      (andClose_stepSpec _ _ (by simp [zcCount]) (by simp [lcCount]))
  · exact stepSpec_same (by simp) (by simp) (by simp [zcCount]) (by simp [lcCount])

theorem on_udp_input_stepSpec (br : Bridge) (now : Nat) (len : Int)
    (buf : Nat) (wrc : Int) : StepSpec br (on_udp_input br now len buf wrc) := by
  simp only [on_udp_input]
  split_ifs with h1 h2 h3 h4 h5
  · exact stepSpec_base (br_set_idle_timeout now br) (bsit_closed now br) (bsit_input now br)
      (andClose_stepSpec _ _ (by simp [zcCount]) (by simp [lcCount]))
  · exact stepSpec_same (by simp) (by simp) (by simp [zcCount]) (by simp [lcCount])
  · exact stepSpec_same (by simp) (by simp) (by simp [zcCount]) (by simp [lcCount])
  · exact stepSpec_same (by simp) (by simp) (by simp [zcCount]) (by simp [lcCount])
  · exact stepSpec_base (br_set_idle_timeout now br) (bsit_closed now br) (bsit_input now br)
      (andClose_stepSpec _ _ (by simp [zcCount]) (by simp [lcCount]))
  · exact stepSpec_same (by simp) (by simp) (by simp [zcCount]) (by simp [lcCount])

theorem on_ziti_data_stepSpec (br : Bridge) (now : Nat) (len : Int)
    (twrc src : Int) :
    StepSpec br ((on_ziti_data br now len twrc src).1,
                 (on_ziti_data br now len twrc src).2.1) := by
  simp only [on_ziti_data]
  split_ifs with h1 h2 h3 h4 h5 h6
  · exact stepSpec_same (by simp) (by simp) (by simp [zcCount]) (by simp [lcCount])
  · exact stepSpec_same (by simp) (by simp) (by simp [zcCount]) (by simp [lcCount])
  · exact stepSpec_base (br_set_idle_timeout now br) (bsit_closed now br) (bsit_input now br)
      (andClose_stepSpec _ _ (by simp [zcCount]) (by simp [lcCount]))
  · exact stepSpec_base { br_set_idle_timeout now br with ziti_eof := true }
      (by simp) (by simp) (close_bridge_stepSpec _)
  · exact stepSpec_base { br_set_idle_timeout now br with ziti_eof := true }
      (by simp) (by simp) (close_bridge_stepSpec _)
  · exact stepSpec_same (by simp) (by simp) (by simp [zcCount]) (by simp [lcCount])
  · exact stepSpec_base (br_set_idle_timeout now br) (bsit_closed now br) (bsit_input now br)
      (close_bridge_stepSpec _)

theorem on_shutdown_stepSpec (br : Bridge) (st : Int) :
    StepSpec br (on_shutdown br st) := by
  unfold on_shutdown
  split_ifs with h
  · exact close_bridge_stepSpec br
  · exact stepSpec_same rfl rfl rfl rfl

theorem zcbit_closed (br : Bridge) (now m : Nat) :
    (ziti_conn_bridge_idle_timeout br now m).1.closed = br.closed := by
  unfold ziti_conn_bridge_idle_timeout
  split <;> simp

theorem zcbit_input (br : Bridge) (now m : Nat) :
    (ziti_conn_bridge_idle_timeout br now m).1.input = br.input := by
  unfold ziti_conn_bridge_idle_timeout
  split <;> simp

theorem step_stepSpec (br : Bridge) (now : Nat) (e : Ev) :
    StepSpec br (step br now e) := by
  cases e with
  | localRead len buf wrc => exact on_input_stepSpec br now len buf wrc
  | udpRead len buf wrc => exact on_udp_input_stepSpec br now len buf wrc
  | writeDone st buf rrc => exact on_ziti_write_stepSpec br st buf rrc
  | zitiData len twrc src => exact on_ziti_data_stepSpec br now len twrc src
  | shutdownDone st => exact on_shutdown_stepSpec br st
  | setTimeout m =>
      exact stepSpec_same (zcbit_closed br now m) (zcbit_input br now m) rfl rfl
  | idleFire =>
      simp only [step]
      cases h : br.idler with
      | none => exact stepSpec_same rfl rfl rfl rfl
      | some t =>
          dsimp only
          split_ifs with ht
          · exact stepSpec_base { br with idler := none } rfl rfl
              (close_bridge_stepSpec _)
          · exact stepSpec_same rfl rfl rfl rfl

theorem psi_le_one (br : Bridge) : psi br ≤ 1 := by
  unfold psi; split <;> omega

theorem runEvents_counts (evs : List (Nat × Ev)) (br : Bridge) :
    zcCount (runEvents br evs).2 + phi (runEvents br evs).1 ≤ phi br ∧
    lcCount (runEvents br evs).2 + psi (runEvents br evs).1 ≤ psi br := by
  induction evs generalizing br with
  | nil => simp [runEvents, zcCount, lcCount]
  | cons p rest ih =>
      obtain ⟨now, e⟩ := p
      have hs := step_stepSpec br now e
      obtain ⟨hr1, hr2⟩ := ih (step br now e).1
      simp only [runEvents]
      rw [zcCount_append, lcCount_append]
      have hp := psi_le_one br
      rcases hs with ⟨a, b, c, d⟩ | ⟨a, b, c, d, e2⟩
      · have g1 : phi (step br now e).1 = phi br := by simp [phi, a]
        have g2 : psi (step br now e).1 = psi br := by simp [psi, b]
        omega
      · have g1 : phi br = 1 := by simp [phi, a]
        have g2 : phi (step br now e).1 = 0 := by simp [phi, b]
        have g3 : psi (step br now e).1 = 0 := by simp [psi, c]
        omega

theorem step_closed_mono (br : Bridge) (now : Nat) (e : Ev)
    (h : br.closed = true) : (step br now e).1.closed = true := by
  rcases step_stepSpec br now e with ⟨a, _, _, _⟩ | ⟨a, _, _, _, _⟩
  · rw [a, h]
  · rw [h] at a; cases a

theorem step_invCI (br : Bridge) (now : Nat) (e : Ev)
    (h : br.input = !br.closed) :
    (step br now e).1.input = !(step br now e).1.closed := by
  rcases step_stepSpec br now e with ⟨a, b, _, _⟩ | ⟨_, a, b, _, _⟩
  · rw [a, b, h]
  · rw [a, b]; rfl

theorem runEvents_invCI (evs : List (Nat × Ev)) (br : Bridge)
    (h : br.input = !br.closed) :
    (runEvents br evs).1.input = !(runEvents br evs).1.closed := by
  induction evs generalizing br with
  | nil => simpa [runEvents] using h
  | cons p rest ih =>
      obtain ⟨now, e⟩ := p
      simp only [runEvents]
      exact ih (step br now e).1 (step_invCI br now e h)

theorem close_bridge_no_readStart (br : Bridge) :
    Act.readStart ∉ (close_bridge br).2 := by
  unfold close_bridge
  by_cases h : br.closed <;> by_cases h2 : br.input <;> simp [h, h2]

theorem andClose_no_readStart (pre : List Act) (br : Bridge)
    (h : Act.readStart ∉ pre) : Act.readStart ∉ (andClose pre br).2 := by
  intro hm
  rcases List.mem_append.mp hm with h2 | h2
  · exact h h2
  · exact close_bridge_no_readStart br h2

theorem on_input_no_readStart (br : Bridge) (now : Nat) (len : Int)
    (buf : Nat) (wrc : Int) :
    Act.readStart ∉ (on_input br now len buf wrc).2 := by
  simp only [on_input]
  split_ifs <;>
    first
      | exact andClose_no_readStart _ _ (by simp)
      | simp

theorem on_udp_input_no_readStart (br : Bridge) (now : Nat) (len : Int)
    (buf : Nat) (wrc : Int) :
    Act.readStart ∉ (on_udp_input br now len buf wrc).2 := by
  simp only [on_udp_input]
  split_ifs <;>
    first
      | exact andClose_no_readStart _ _ (by simp)
      | simp

theorem on_ziti_data_no_readStart (br : Bridge) (now : Nat) (len : Int)
    (twrc src : Int) :
    Act.readStart ∉ (on_ziti_data br now len twrc src).2.1 := by
  simp only [on_ziti_data]
  split_ifs <;>
    first
      | exact andClose_no_readStart _ _ (by simp)
      | exact close_bridge_no_readStart _
      | simp

theorem on_ziti_write_readStart (br : Bridge) (st : Int) (buf : Nat)
    (rrc : Int) (h : Act.readStart ∈ (on_ziti_write br st buf rrc).2) :
    br.input = true := by
  by_cases h2 : br.input
  · exact h2
  · exfalso
    revert h
    unfold on_ziti_write
    split_ifs <;>
      first
        | exact andClose_no_readStart _ _ (by simp)
        | simp

theorem step_readStart (br : Bridge) (now : Nat) (e : Ev)
    (h : Act.readStart ∈ (step br now e).2) : br.input = true := by
  cases e with
  | localRead len buf wrc => exact absurd h (on_input_no_readStart br now len buf wrc)
  | udpRead len buf wrc => exact absurd h (on_udp_input_no_readStart br now len buf wrc)
  | writeDone st buf rrc => exact on_ziti_write_readStart br st buf rrc h
  | zitiData len twrc src => exact absurd h (on_ziti_data_no_readStart br now len twrc src)
  | shutdownDone st =>
      exfalso
      revert h
      show Act.readStart ∈ (on_shutdown br st).2 → False
      unfold on_shutdown
      split_ifs
      · exact close_bridge_no_readStart _
      · simp
  | setTimeout m => simp [step] at h
  | idleFire =>
      exfalso
      revert h
      simp only [step]
      cases br.idler with
      | none => simp
      | some t =>
          dsimp only
          split_ifs
          · exact close_bridge_no_readStart _
          · simp

@[simp] theorem close_bridge_closed (br : Bridge) :
    (close_bridge br).1.closed = true := by
  unfold close_bridge
  by_cases h : br.closed <;> by_cases h2 : br.input <;> simp [h, h2]

@[simp] theorem close_bridge_input_eof (br : Bridge) :
    (close_bridge br).1.input_eof = br.input_eof := by
  unfold close_bridge
  by_cases h : br.closed <;> by_cases h2 : br.input <;> simp [h, h2]

@[simp] theorem close_bridge_ziti_eof (br : Bridge) :
    (close_bridge br).1.ziti_eof = br.ziti_eof := by
  unfold close_bridge
  by_cases h : br.closed <;> by_cases h2 : br.input <;> simp [h, h2]

@[simp] theorem close_bridge_idler (br : Bridge) :
    (close_bridge br).1.idler = br.idler := by
  unfold close_bridge
  by_cases h : br.closed <;> by_cases h2 : br.input <;> simp [h, h2]

theorem close_bridge_mem_zitiClose (br : Bridge) (h : br.closed = false) :
    Act.zitiClose ∈ (close_bridge br).2 := by
  unfold close_bridge
  by_cases h2 : br.input <;> simp [h, h2]

theorem close_bridge_no_poolReturn (br : Bridge) (buf : Nat) :
    Act.poolReturn buf ∉ (close_bridge br).2 := by
  unfold close_bridge
  by_cases h : br.closed <;> by_cases h2 : br.input <;> simp [h, h2]

theorem bsit_idler_pos (now : Nat) (br : Bridge) (h : 0 < br.idle_timeout) :
    (br_set_idle_timeout now br).idler = some (now + br.idle_timeout) := by
  unfold br_set_idle_timeout
  rw [if_pos h]

/-- C1: each pooled buffer is returned exactly once.  The remote-write
completion does return its buffer first on every status (last conjunct), but
the claim fails on the remote-write submission-failure path: a local read of
100 bytes whose `ziti_write` submission fails (here with
`ZITI_INVALID_STATE`) makes `on_input` tear the session down without ever
returning the buffer it handed to the failed submission — the emitted
actions contain the write submission and the teardown but no pool return, so
that buffer is dropped. -/
theorem c1_write_submit_failure_drops_buffer :
    ((on_input (initBridge false) 0 100 7 ZITI_INVALID_STATE).2 =
       [Act.zitiWriteSubmit 7 100, Act.closeLocal, Act.zitiClose]) ∧
    (Act.poolReturn 7 ∉
       (on_input (initBridge false) 0 100 7 ZITI_INVALID_STATE).2) ∧
    ((on_input (initBridge false) 0 100 7 ZITI_INVALID_STATE).1.closed
       = true) ∧
    (∀ (br : Bridge) (st : Int) (buf : Nat) (rrc : Int),
       ∃ rest, (on_ziti_write br st buf rrc).2 = Act.poolReturn buf :: rest ∧
         Act.poolReturn buf ∉ rest) := by
  refine ⟨by decide, by decide, by decide, ?_⟩
  intro br st buf rrc
  unfold on_ziti_write
  split_ifs with h1 h2 h3 h4
  · exact ⟨(close_bridge br).2, rfl, close_bridge_no_poolReturn br buf⟩
  · refine ⟨Act.readStart ::
      (close_bridge { br with input_throttle := false }).2, rfl, ?_⟩
    simp [close_bridge_no_poolReturn { br with input_throttle := false } buf]
  · exact ⟨[Act.readStart], rfl, by simp⟩
  · exact ⟨[], rfl, by simp⟩
  · exact ⟨[], rfl, by simp⟩

/-- C2: teardown of a bridge session runs at most once: `close_bridge` on an
already-closed session is a no-op that changes no state, the `closed` flag
is monotone (never reset) under every event, and along every event sequence
from a fresh session the ziti-connection close and the local close callback
are each initiated at most once. -/
theorem c2_teardown_at_most_once :
    (∀ br : Bridge, br.closed = true → close_bridge br = (br, [])) ∧
    (∀ (br : Bridge) (now : Nat) (e : Ev), br.closed = true →
       (step br now e).1.closed = true) ∧
    (∀ (u : Bool) (evs : List (Nat × Ev)),
       zcCount (runEvents (initBridge u) evs).2 ≤ 1 ∧
       lcCount (runEvents (initBridge u) evs).2 ≤ 1) := by
  refine ⟨?_, step_closed_mono, ?_⟩
  · intro br h
    unfold close_bridge
    simp [h]
  · intro u evs
    obtain ⟨h1, h2⟩ := runEvents_counts evs (initBridge u)
    have g1 : phi (initBridge u) = 1 := rfl
    have g2 : psi (initBridge u) = 1 := rfl
    omega

/-- Sample already-closed session used by witnesses. -/
def brClosedSample : Bridge :=
  { closed := true, ziti_eof := false, input_eof := false, input := false,
    inputIsUdp := false, input_throttle := false, idle_timeout := 0,
    idler := none }

/-- Witness for C2 at concrete inputs. -/
theorem c2_witness :
    close_bridge brClosedSample = (brClosedSample, []) ∧
    (step brClosedSample 0 Ev.idleFire).1.closed = true ∧
    zcCount (runEvents (initBridge false) [(0, Ev.idleFire)]).2 ≤ 1 :=
  ⟨c2_teardown_at_most_once.1 brClosedSample rfl,
   c2_teardown_at_most_once.2.1 brClosedSample 0 Ev.idleFire rfl,
   (c2_teardown_at_most_once.2.2 false [(0, Ev.idleFire)]).1⟩

/-- C3: throttle protocol.  A pool-exhaustion read event (`UV_ENOBUFS`)
stops local reads and sets the throttle only when it was not already set (a
second exhaustion event changes nothing and does not stop reads again); a
successful remote-write completion on a live, not-closed session with the
throttle set clears it and restarts local reads, and a failing restart tears
the session down; along every event sequence from a fresh session, reads are
never restarted once the session is closed, and while it is not closed the
input handle is still held (so the code's `br->input` guard coincides with
"not closed"). -/
theorem c3_throttle_protocol :
    (∀ (br : Bridge) (now buf : Nat) (wrc : Int),
       br.input_throttle = false →
       on_input br now UV_ENOBUFS buf wrc =
         ({ br_set_idle_timeout now br with input_throttle := true },
          [Act.poolReturn buf, Act.readStop])) ∧
    (∀ (br : Bridge) (now buf : Nat) (wrc : Int),
       br.input_throttle = true →
       on_input br now UV_ENOBUFS buf wrc =
         (br_set_idle_timeout now br, [Act.poolReturn buf])) ∧
    (∀ (br : Bridge) (st : Int) (buf : Nat),
       ZITI_OK ≤ st → br.closed = false → br.input = true →
       br.input_throttle = true →
       on_ziti_write br st buf 0 =
         ({ br with input_throttle := false },
          [Act.poolReturn buf, Act.readStart])) ∧
    (∀ (br : Bridge) (st : Int) (buf : Nat) (rrc : Int),
       ZITI_OK ≤ st → br.closed = false → br.input = true →
       br.input_throttle = true → rrc ≠ 0 →
       (on_ziti_write br st buf rrc).1.closed = true ∧
       Act.zitiClose ∈ (on_ziti_write br st buf rrc).2) ∧
    (∀ (u : Bool) (evs : List (Nat × Ev)) (now : Nat) (e : Ev),
       (runEvents (initBridge u) evs).1.closed = true →
       Act.readStart ∉ (step (runEvents (initBridge u) evs).1 now e).2) ∧
    (∀ (u : Bool) (evs : List (Nat × Ev)),
       (runEvents (initBridge u) evs).1.closed = false →
       (runEvents (initBridge u) evs).1.input = true) := by
  refine ⟨?_, ?_, ?_, ?_, ?_, ?_⟩
  · intro br now buf wrc h
    simp [on_input, UV_ENOBUFS, h]
  · intro br now buf wrc h
    simp [on_input, UV_ENOBUFS, h]
  · intro br st buf hst hcl hin hth
    have hlt : ¬ st < ZITI_OK := not_lt.mpr hst
    simp [on_ziti_write, hlt, hin, hth]
  · intro br st buf rrc hst hcl hin hth hrrc
    have hlt : ¬ st < ZITI_OK := not_lt.mpr hst
    have hcl2 : ({ br with input_throttle := false } : Bridge).closed = false := hcl
    simp only [on_ziti_write, if_neg hlt, hin, if_pos hth, if_pos rfl,
      if_pos hrrc, if_true]
    constructor
    · simp [andClose]
    · simp only [andClose, List.mem_append]
      exact Or.inr (close_bridge_mem_zitiClose _ hcl2)
  · intro u evs now e h hm
    have hinv := runEvents_invCI evs (initBridge u) rfl
    rw [h] at hinv
    have := step_readStart _ now e hm
    rw [this] at hinv
    cases hinv
  · intro u evs h
    have hinv := runEvents_invCI evs (initBridge u) rfl
    rw [h] at hinv
    exact hinv

/-- Sample live throttled session used by witnesses. -/
def brThrottledSample : Bridge :=
  { closed := false, ziti_eof := false, input_eof := false, input := true,
    inputIsUdp := false, input_throttle := true, idle_timeout := 0,
    idler := none }

/-- Witness for C3 at concrete inputs. -/
theorem c3_witness :
    on_input (initBridge false) 0 UV_ENOBUFS 3 0 =
      ({ br_set_idle_timeout 0 (initBridge false) with
           input_throttle := true },
       [Act.poolReturn 3, Act.readStop]) ∧
    on_input brThrottledSample 0 UV_ENOBUFS 3 0 =
      (br_set_idle_timeout 0 brThrottledSample, [Act.poolReturn 3]) ∧
    on_ziti_write brThrottledSample 0 3 0 =
      ({ brThrottledSample with input_throttle := false },
       [Act.poolReturn 3, Act.readStart]) ∧
    (on_ziti_write brThrottledSample 0 3 (-1)).1.closed = true ∧
    Act.readStart ∉
      (step (runEvents (initBridge false) [(0, Ev.localRead (-1) 3 0)]).1 1
        (Ev.writeDone 0 4 0)).2 ∧
    (runEvents (initBridge false) []).1.input = true :=
  ⟨c3_throttle_protocol.1 (initBridge false) 0 3 0 rfl,
   c3_throttle_protocol.2.1 brThrottledSample 0 3 0 rfl,
   c3_throttle_protocol.2.2.1 brThrottledSample 0 3 (by decide) rfl rfl rfl,
   (c3_throttle_protocol.2.2.2.1 brThrottledSample 0 3 (-1) (by decide) rfl
      rfl rfl (by decide)).1,
   c3_throttle_protocol.2.2.2.2.1 false [(0, Ev.localRead (-1) 3 0)] 1
     (Ev.writeDone 0 4 0) (by decide),
   c3_throttle_protocol.2.2.2.2.2 false [] (by decide)⟩

/-- C4: for a data push of positive length `n` from the remote connection,
the relay attempts one non-blocking local write whose result is `rc ≤ n`:
a non-negative `rc` is returned as consumed unchanged (no teardown), a
would-block `UV_EAGAIN` is reported as 0 consumed with no teardown, any
other negative status tears the session down; in every case the value
reported as consumed never exceeds the bytes actually written locally. -/
theorem c4_consumed_never_exceeds_written (br : Bridge) (now : Nat)
    (n rc src : Int) (hn : 0 < n) (hrc : rc ≤ n) :
    (0 ≤ rc → on_ziti_data br now n rc src =
       (br_set_idle_timeout now br, [Act.tryWriteLocal n.toNat], rc)) ∧
    (rc = UV_EAGAIN → on_ziti_data br now n rc src =
       (br_set_idle_timeout now br, [Act.tryWriteLocal n.toNat], 0)) ∧
    (rc < 0 → rc ≠ UV_EAGAIN →
       (on_ziti_data br now n rc src).2.2 = rc ∧
       (on_ziti_data br now n rc src).1.closed = true ∧
       (br.closed = false →
          Act.zitiClose ∈ (on_ziti_data br now n rc src).2.1)) ∧
    (on_ziti_data br now n rc src).2.2 ≤ n ∧
    (on_ziti_data br now n rc src).2.2.toNat ≤ rc.toNat := by
  by_cases h0 : 0 ≤ rc
  · have heq : on_ziti_data br now n rc src =
        (br_set_idle_timeout now br, [Act.tryWriteLocal n.toNat], rc) := by
      simp [on_ziti_data, hn, h0]
    rw [heq]
    exact ⟨fun _ => rfl, fun h => by rw [h] at h0; exact absurd h0 (by decide),
      fun h _ => absurd h (not_lt.mpr h0), hrc, le_refl _⟩
  · by_cases hea : rc = UV_EAGAIN
    · have heq : on_ziti_data br now n rc src =
          (br_set_idle_timeout now br, [Act.tryWriteLocal n.toNat], 0) := by
        simp [on_ziti_data, UV_EAGAIN, hn, h0, hea]
      rw [heq]
      exact ⟨fun h => absurd h h0, fun _ => rfl, fun _ h2 => absurd hea h2,
        by dsimp only; omega, by simp⟩
    · have hneg : rc < 0 := lt_of_not_ge h0
      have heq : on_ziti_data br now n rc src =
          ((close_bridge (br_set_idle_timeout now br)).1,
           [Act.tryWriteLocal n.toNat] ++
             (close_bridge (br_set_idle_timeout now br)).2, rc) := by
        simp [on_ziti_data, hn, h0, hea, andClose]
      rw [heq]
      refine ⟨fun h => absurd h h0, fun h => absurd h hea,
        fun _ _ => ⟨rfl, by simp, ?_⟩, by dsimp only; omega, by dsimp only; omega⟩
      intro hcl
      refine List.mem_append.mpr (Or.inr (close_bridge_mem_zitiClose _ ?_))
      simp [hcl]

/-- Witness for C4 at concrete inputs. -/
theorem c4_witness :
    on_ziti_data (initBridge false) 0 100 60 0 =
      (br_set_idle_timeout 0 (initBridge false),
       [Act.tryWriteLocal (100 : Int).toNat], 60) ∧
    (on_ziti_data (initBridge false) 0 100 60 0).2.2 ≤ 100 :=
  ⟨(c4_consumed_never_exceeds_written (initBridge false) 0 100 60 0
      (by decide) (by decide)).1 (by decide),
   (c4_consumed_never_exceeds_written (initBridge false) 0 100 60 0
      (by decide) (by decide)).2.2.2.1⟩

/-- C5: local EOF handling.  On a local stream EOF event the relay sets the
local EOF flag; when the remote EOF flag is already set it performs full
teardown, otherwise it only submits a write-side half-close on the remote
connection and does not tear down; a remote EOF arriving when the local EOF
flag is set then performs full teardown; and on a datagram (connectionless)
local endpoint an EOF-valued read status performs full teardown. -/
theorem c5_local_eof_half_close :
    (∀ (br : Bridge) (now buf : Nat) (wrc : Int), br.ziti_eof = false →
       on_input br now UV_EOF buf wrc =
         ({ br_set_idle_timeout now br with input_eof := true },
          [Act.poolReturn buf, Act.zitiCloseWrite])) ∧
    (∀ (br : Bridge) (now buf : Nat) (wrc : Int), br.ziti_eof = true →
       (on_input br now UV_EOF buf wrc).1.input_eof = true ∧
       (on_input br now UV_EOF buf wrc).1.closed = true ∧
       (br.closed = false →
          Act.zitiClose ∈ (on_input br now UV_EOF buf wrc).2)) ∧
    (∀ (br : Bridge) (now : Nat) (twrc src : Int), br.input_eof = true →
       (on_ziti_data br now ZITI_EOF twrc src).1.closed = true ∧
       (br.closed = false →
          Act.zitiClose ∈ (on_ziti_data br now ZITI_EOF twrc src).2.1)) ∧
    (∀ (br : Bridge) (now buf : Nat) (wrc : Int),
       (on_udp_input br now UV_EOF buf wrc).1.closed = true ∧
       (br.closed = false →
          Act.zitiClose ∈ (on_udp_input br now UV_EOF buf wrc).2)) := by
  refine ⟨?_, ?_, ?_, ?_⟩
  · intro br now buf wrc h
    simp [on_input, UV_EOF, UV_ENOBUFS, h]
  · intro br now buf wrc h
    have heq : on_input br now UV_EOF buf wrc =
        ((close_bridge
            { br_set_idle_timeout now br with input_eof := true }).1,
         [Act.poolReturn buf] ++
           (close_bridge
             { br_set_idle_timeout now br with input_eof := true }).2) := by
      simp [on_input, UV_EOF, UV_ENOBUFS, h, andClose]
    rw [heq]
    refine ⟨by simp, by simp, ?_⟩
    intro hcl
    refine List.mem_append.mpr (Or.inr (close_bridge_mem_zitiClose _ ?_))
    simp [hcl]
  · intro br now twrc src h
    have heq : on_ziti_data br now ZITI_EOF twrc src =
        ((close_bridge
            { br_set_idle_timeout now br with ziti_eof := true }).1,
         (close_bridge
            { br_set_idle_timeout now br with ziti_eof := true }).2, 0) := by
      simp [on_ziti_data, ZITI_EOF, h]
    rw [heq]
    refine ⟨by simp, ?_⟩
    intro hcl
    refine close_bridge_mem_zitiClose _ ?_
    simp [hcl]
  · intro br now buf wrc
    have heq : on_udp_input br now UV_EOF buf wrc =
        ((close_bridge (br_set_idle_timeout now br)).1,
         [Act.poolReturn buf] ++
           (close_bridge (br_set_idle_timeout now br)).2) := by
      simp [on_udp_input, UV_EOF, UV_ENOBUFS, andClose]
    rw [heq]
    refine ⟨by simp, ?_⟩
    intro hcl
    refine List.mem_append.mpr (Or.inr (close_bridge_mem_zitiClose _ ?_))
    simp [hcl]

/-- Sample live session that has already seen local EOF. -/
def brLocalEofSample : Bridge :=
  { closed := false, ziti_eof := false, input_eof := true, input := true,
    inputIsUdp := false, input_throttle := false, idle_timeout := 0,
    idler := none }

/-- Witness for C5 at concrete inputs. -/
theorem c5_witness :
    on_input (initBridge false) 0 UV_EOF 3 0 =
      ({ br_set_idle_timeout 0 (initBridge false) with input_eof := true },
       [Act.poolReturn 3, Act.zitiCloseWrite]) ∧
    (on_ziti_data brLocalEofSample 1 ZITI_EOF 0 0).1.closed = true ∧
    (on_udp_input (initBridge true) 0 UV_EOF 3 0).1.closed = true :=
  ⟨c5_local_eof_half_close.1 (initBridge false) 0 3 0 rfl,
   (c5_local_eof_half_close.2.2.1 brLocalEofSample 1 0 0 rfl).1,
   (c5_local_eof_half_close.2.2.2 (initBridge true) 0 3 0).1⟩

/-- C6 counterexample: setting the idle timeout to 0 does NOT disable
idle-based teardown for a deadline that is already pending.  Arm a 5ms
timeout at t=0, set the timeout to 0 at t=1 (the configured timeout is now
0 and the session is still open), and the still-pending deadline fires at
t=6 and closes the session — so the session IS closed by idle expiry after
the timeout was set to 0, refuting the claim as stated. -/
theorem c6_counterexample :
    (runEvents (initBridge false)
       [(0, Ev.setTimeout 5), (1, Ev.setTimeout 0)]).1.idle_timeout = 0 ∧
    (runEvents (initBridge false)
       [(0, Ev.setTimeout 5), (1, Ev.setTimeout 0)]).1.closed = false ∧
    (runEvents (initBridge false)
       [(0, Ev.setTimeout 5), (1, Ev.setTimeout 0)]).1.idler = some 5 ∧
    (runEvents (initBridge false)
       [(0, Ev.setTimeout 5), (1, Ev.setTimeout 0),
        (6, Ev.idleFire)]).1.closed = true ∧
    Act.zitiClose ∈ (runEvents (initBridge false)
       [(0, Ev.setTimeout 5), (1, Ev.setTimeout 0),
        (6, Ev.idleFire)]).2 := by
  decide

/-- C6 (amended): setting the idle timeout to 0 stops any future arming of
the idle deadline (subsequent inbound events leave the deadline state
unchanged) but does not cancel an already-pending deadline, which may still
expire and tear the session down; with no pending deadline the session is
never closed by idle expiry while the timeout is 0.  Setting a non-zero
value re-arms the single outstanding deadline with the new value rather
than stacking a second one, and every inbound event in either relay, while
the configured timeout is positive, reschedules the deadline to now +
timeout. -/
theorem c6_idle_timeout_amended :
    (∀ (br : Bridge) (now : Nat), br.idle_timeout = 0 →
       br_set_idle_timeout now br = br) ∧
    (∀ (br : Bridge) (now : Nat),
       (ziti_conn_bridge_idle_timeout br now 0).1.idler = br.idler ∧
       (ziti_conn_bridge_idle_timeout br now 0).1.idle_timeout = 0) ∧
    (∀ (br : Bridge) (now m : Nat), 0 < m →
       (ziti_conn_bridge_idle_timeout br now m).1.idler = some (now + m) ∧
       (ziti_conn_bridge_idle_timeout br now m).1.idle_timeout = m) ∧
    (∀ (br : Bridge) (now : Nat) (len : Int) (buf : Nat) (wrc : Int),
       0 < br.idle_timeout →
       (on_input br now len buf wrc).1.idler =
         some (now + br.idle_timeout)) ∧
    (∀ (br : Bridge) (now : Nat) (len twrc src : Int),
       0 < br.idle_timeout →
       (on_ziti_data br now len twrc src).1.idler =
         some (now + br.idle_timeout)) ∧
    (∀ (br : Bridge) (now : Nat), br.idler = none →
       step br now Ev.idleFire = (br, [])) := by
  refine ⟨?_, ?_, ?_, ?_, ?_, ?_⟩
  · intro br now h
    unfold br_set_idle_timeout
    rw [if_neg (by omega)]
  · intro br now
    constructor <;> simp [ziti_conn_bridge_idle_timeout]
  · intro br now m hm
    have h0 : ¬ m = 0 := by omega
    constructor
    · simp only [ziti_conn_bridge_idle_timeout, if_neg h0]
      rw [bsit_idler_pos _ _ hm]
    · simp [ziti_conn_bridge_idle_timeout, h0]
  · intro br now len buf wrc h
    have hb := bsit_idler_pos now br h
    simp only [on_input]
    split_ifs <;> simp [andClose, hb]
  · intro br now len twrc src h
    have hb := bsit_idler_pos now br h
    simp only [on_ziti_data]
    split_ifs <;> simp [andClose, hb]
  · intro br now h
    simp [step, h]

/-- Witness for C6's amended theorem at concrete inputs. -/
theorem c6_witness :
    br_set_idle_timeout 4 (initBridge false) = initBridge false ∧
    (ziti_conn_bridge_idle_timeout
       (ziti_conn_bridge_idle_timeout (initBridge false) 0 5).1 1 7).1.idler
      = some 8 ∧
    (on_input (ziti_conn_bridge_idle_timeout (initBridge false) 0 5).1
       2 100 3 0).1.idler = some 7 :=
  ⟨c6_idle_timeout_amended.1 (initBridge false) 4 rfl,
   (c6_idle_timeout_amended.2.2.1
      (ziti_conn_bridge_idle_timeout (initBridge false) 0 5).1 1 7
      (by decide)).1,
   c6_idle_timeout_amended.2.2.2.1
     (ziti_conn_bridge_idle_timeout (initBridge false) 0 5).1 2 100 3 0
     (by decide)⟩

/-- C7: asymmetric-variant teardown.  The pipes close callback closes the
input handle and the output handle and only then invokes the caller's
close-notification callback, which appears exactly once in the performed
actions; and along every event sequence from a fresh session the session
close callback (which is `on_pipes_close` in the asymmetric variant) is
invoked at most once. -/
theorem c7_pipes_close_notification :
    on_pipes_close true =
      [Act.closeInHandle, Act.closeOutHandle, Act.fdbrNotify] ∧
    ((on_pipes_close true).countP fun a => decide (a = Act.fdbrNotify)) = 1 ∧
    (∀ (u : Bool) (evs : List (Nat × Ev)),
       lcCount (runEvents (initBridge u) evs).2 ≤ 1) := by
  refine ⟨rfl, by decide, ?_⟩
  intro u evs
  obtain ⟨h1, h2⟩ := runEvents_counts evs (initBridge u)
  have g2 : psi (initBridge u) = 1 := rfl
  omega

/-- C8: completion of a previously submitted local half-close: status 0 and
the benign cancelled status `UV_ECANCELED` (operation superseded by close)
cause no state change and no teardown, while every other non-zero status
performs full teardown. -/
theorem c8_shutdown_completion (br : Bridge) (status : Int) :
    (status = 0 → on_shutdown br status = (br, [])) ∧
    (status = UV_ECANCELED → on_shutdown br status = (br, [])) ∧
    (status ≠ 0 → status ≠ UV_ECANCELED →
       on_shutdown br status = close_bridge br ∧
       (on_shutdown br status).1.closed = true ∧
       (br.closed = false →
          Act.zitiClose ∈ (on_shutdown br status).2)) := by
  refine ⟨?_, ?_, ?_⟩
  · intro h
    simp [on_shutdown, h]
  · intro h
    simp [on_shutdown, h]
  · intro h1 h2
    have heq : on_shutdown br status = close_bridge br := by
      simp [on_shutdown, h1, h2]
    rw [heq]
    exact ⟨rfl, by simp, close_bridge_mem_zitiClose br⟩

/-- Witness for C8 at concrete inputs. -/
theorem c8_witness :
    on_shutdown (initBridge false) UV_ECANCELED = (initBridge false, []) ∧
    on_shutdown (initBridge false) (-32) = close_bridge (initBridge false) ∧
    on_shutdown (initBridge false) 0 = (initBridge false, []) :=
  ⟨(c8_shutdown_completion (initBridge false) UV_ECANCELED).2.1 rfl,
   ((c8_shutdown_completion (initBridge false) (-32)).2.2 (by decide)
      (by decide)).1,
   (c8_shutdown_completion (initBridge false) 0).1 rfl⟩

theorem zlnf_data_cb_data_eval (data : List Nat) (n cap : Nat)
    (hn : 0 < n) (hcap : 0 < cap) :
    zlnf_data_cb data (n : Int) cap false =
      (some (((min n cap : Nat) : Int), some (data.take (min n cap))),
       ((min n cap : Nat) : Int)) := by
  have h1 : ¬ (n : Int) = ZITI_EOF := by simp only [ZITI_EOF]; omega
  have h2 : ¬ (n : Int) < 0 := by omega
  have h3 : ¬ (cap = 0 ∨ (false : Bool) = true) := by
    simp [Nat.pos_iff_ne_zero.mp hcap]
  simp only [zlnf_data_cb, if_neg h1, if_neg h2, if_neg h3]
  by_cases hcn : (cap : Int) < (n : Int)
  · have hcn2 : cap < n := by exact_mod_cast hcn
    have hmin : min n cap = cap := min_eq_right (Nat.le_of_lt hcn2)
    rw [if_pos hcn, hmin]
    simp
  · have hle : n ≤ cap := by
      have := not_lt.mp hcn
      exact_mod_cast this
    have hmin : min n cap = n := min_eq_left hle
    rw [if_neg hcn, hmin]
    simp

/-- C9: data delivery to the stream-link adapter.  For a chunk of `n > 0`
bytes and a consumer buffer of capacity `cap > 0`, exactly `min n cap`
bytes (the chunk's prefix) are delivered to the consumer's read callback
and `min n cap` is reported as consumed, the excess being discarded; when
the consumer offers no capacity (zero-length or null buffer) the callback
reports 0 consumed and raises no error. -/
theorem c9_stream_link_truncation (data : List Nat) (n cap : Nat)
    (hlen : data.length = n) (hn : 0 < n) :
    (0 < cap →
       zlnf_data_cb data (n : Int) cap false =
         (some (((min n cap : Nat) : Int), some (data.take (min n cap))),
          ((min n cap : Nat) : Int)) ∧
       (data.take (min n cap)).length = min n cap) ∧
    zlnf_data_cb data (n : Int) 0 false = (none, 0) ∧
    (∀ al : Nat, zlnf_data_cb data (n : Int) al true = (none, 0)) := by
  have h1 : ¬ (n : Int) = ZITI_EOF := by simp only [ZITI_EOF]; omega
  have h2 : ¬ (n : Int) < 0 := by omega
  refine ⟨?_, ?_, ?_⟩
  · intro hcap
    refine ⟨zlnf_data_cb_data_eval data n cap hn hcap, ?_⟩
    rw [List.length_take, hlen]
    omega
  · simp [zlnf_data_cb, if_neg h1, if_neg h2]
  · intro al
    simp [zlnf_data_cb, if_neg h1, if_neg h2]

/-- Witness for C9 at the spec's own scenario: 100 delivered bytes against a
60-byte consumer buffer give exactly 60 bytes delivered and 60 reported as
consumed. -/
theorem c9_witness :
    zlnf_data_cb (List.range 100) ((100 : Nat) : Int) 60 false =
      (some (((min 100 60 : Nat) : Int),
             some ((List.range 100).take (min 100 60))),
       ((min 100 60 : Nat) : Int)) ∧
    zlnf_data_cb (List.range 100) ((100 : Nat) : Int) 0 false = (none, 0) :=
  ⟨((c9_stream_link_truncation (List.range 100) 100 60 (by simp)
       (by decide)).1 (by decide)).1,
   (c9_stream_link_truncation (List.range 100) 100 60 (by simp)
      (by decide)).2.1⟩

/-- C10: the asymmetric (two distinct descriptors) attach always returns
`ZITI_OK`, even when starting the read on the input handle fails — in that
case the session is torn down internally while the caller still sees
success — whereas the single-handle attach returns `UV_ECONNABORTED` for
the same read-start failure. -/
theorem c10_fds_distinct_returns_ok (rc : Int) :
    (ziti_conn_bridge_fds_distinct rc).2 = ZITI_OK ∧
    (rc ≠ 0 →
       (ziti_conn_bridge_fds_distinct rc).1.1.closed = true ∧
       Act.zitiClose ∈ (ziti_conn_bridge_fds_distinct rc).1.2 ∧
       (ziti_conn_bridge false false UvHandleType.tcp 0 ZITI_OK rc).2 =
         UV_ECONNABORTED) := by
  constructor
  · unfold ziti_conn_bridge_fds_distinct
    split_ifs <;> rfl
  · intro h
    have heq : ziti_conn_bridge_fds_distinct rc =
        (close_bridge (initBridge false), ZITI_OK) := by
      simp [ziti_conn_bridge_fds_distinct, h]
    rw [heq]
    refine ⟨by simp, close_bridge_mem_zitiClose _ rfl, ?_⟩
    simp [ziti_conn_bridge, h]

/-- Witness for C10 at a concrete failing read-start status. -/
theorem c10_witness :
    (ziti_conn_bridge_fds_distinct (-5)).2 = ZITI_OK ∧
    (ziti_conn_bridge false false UvHandleType.tcp 0 ZITI_OK (-5)).2 =
      UV_ECONNABORTED :=
  ⟨(c10_fds_distinct_returns_ok (-5)).1,
   ((c10_fds_distinct_returns_ok (-5)).2 (by decide)).2.2⟩
